import Mathlib

set_option maxHeartbeats 1000000

/- Shallow embedding of the AuroraHeart interface code: the multi-tab
   editor with bounded undo/redo, debounced history snapshots and
   search/replace from App.jsx, and the terminal multiplexer from
   Terminal.jsx.  JS strings are modelled as Lean strings (lists of
   characters where splicing matters), JS arrays as lists, React state as
   explicit records, and the single setTimeout handle stored in
   undoDebounceTimer as an optional pending-commit record holding exactly
   the variables the JS closure captures. -/

/-- One editor tab: the object literal
    \x7b path, content, isModified, isEditing, undoStack, redoStack \x7d. -/
structure Tab where
  path : String
  content : String
  isModified : Bool
  isEditing : Bool
  undoStack : List String
  redoStack : List String
deriving DecidableEq, Repr

/-- Variables captured by the closure passed to setTimeout in
    handleTabContentChange: the tabs array and activeTabIndex of the
    render that scheduled it (stale by the time the timer fires) and the
    newContent argument. -/
structure PendingCommit where
  staleTabs : List Tab
  index : Nat
  newContent : String
deriving DecidableEq, Repr

/-- A search match object \x7b index, length \x7d. -/
structure SMatch where
  index : Nat
  length : Nat
deriving DecidableEq, Repr

/-- React state of the App component touched by the editor claims. -/
structure AppState where
  tabs : List Tab
  activeTabIndex : Int
  undoDebounceTimer : Option PendingCommit
  searchMatches : List SMatch
  currentMatchIndex : Int
deriving DecidableEq, Repr

/-- Derived value: activeTabIndex >= 0 ? tabs[activeTabIndex] : null. -/
def activeTab (s : AppState) : Option Tab :=
  if s.activeTabIndex < 0 then none else s.tabs[s.activeTabIndex.toNat]?

/-- Derived value: activeTab?.content || two quotes. -/
def editorText (s : AppState) : String :=
  ((activeTab s).map Tab.content).getD ""

/-- JS arr.slice(-50): the last fifty elements. -/
def sliceLast50 (l : List String) : List String :=
  l.drop (l.length - 50)

/-- handleTabContentChange(newContent): clears the pending debounce
    timeout, synchronously writes content and isModified into the active
    tab, and schedules a new timeout whose callback captures the
    pre-edit tabs array, the index and newContent. -/
def handleTabContentChange (s : AppState) (newContent : String) : AppState :=
  match activeTab s with
  | none => s
  | some tab =>
    { s with
      tabs := s.tabs.set s.activeTabIndex.toNat
        { tab with content := newContent, isModified := true },
      undoDebounceTimer := some
        { staleTabs := s.tabs, index := s.activeTabIndex.toNat,
          newContent := newContent } }

/-- Body of the setTimeout callback in handleTabContentChange, applied
    to the current tabs array when the timer fires.  It reads the
    captured (stale) tabs array; when the captured pre-edit content
    differs from newContent it rebuilds the tab from that stale snapshot
    with the extended undo stack and an empty redo stack. -/
def debounceCallback (p : PendingCommit) (current : List Tab) : List Tab :=
  match p.staleTabs[p.index]? with
  | none => current
  | some tab =>
    if tab.content ≠ p.newContent then
      p.staleTabs.set p.index
        { tab with
          undoStack := sliceLast50 (tab.undoStack ++ [tab.content]),
          redoStack := [] }
    else current

/-- Firing of the single shared debounce timeout (no-op when none is
    pending). -/
def fireTimer (s : AppState) : AppState :=
  match s.undoDebounceTimer with
  | none => s
  | some p =>
    { s with tabs := debounceCallback p s.tabs, undoDebounceTimer := none }

/-- Clicking a tab header: setActiveTabIndex(index). -/
def setActiveTab (s : AppState) (i : Int) : AppState :=
  { s with activeTabIndex := i }

/-- handleUndo: pop the last undoStack entry into content, push the
    prior content onto redoStack (capped at 50), set isModified. -/
def handleUndo (s : AppState) : AppState :=
  match activeTab s with
  | none => s
  | some tab =>
    match tab.undoStack.getLast? with
    | none => s
    | some previousContent =>
      { s with
        tabs := s.tabs.set s.activeTabIndex.toNat
          { tab with
            content := previousContent,
            undoStack := tab.undoStack.dropLast,
            redoStack := sliceLast50 (tab.redoStack ++ [tab.content]),
            isModified := true } }

/-- handleRedo: symmetric to handleUndo. -/
def handleRedo (s : AppState) : AppState :=
  match activeTab s with
  | none => s
  | some tab =>
    match tab.redoStack.getLast? with
    | none => s
    | some nextContent =>
      { s with
        tabs := s.tabs.set s.activeTabIndex.toNat
          { tab with
            content := nextContent,
            undoStack := sliceLast50 (tab.undoStack ++ [tab.content]),
            redoStack := tab.redoStack.dropLast,
            isModified := true } }

/-- A file-tree entry as handleFileClick sees it. -/
structure FileItem where
  path : String
  isDirectory : Bool
deriving DecidableEq, Repr

/-- The tab object both open paths append for a not-yet-open file. -/
def freshTab (path content : String) : Tab :=
  { path := path, content := content, isModified := false,
    isEditing := false, undoStack := [], redoStack := [] }

/-- handleFileClick(item); diskContent is the value the
    read_file_by_path collaborator would return for item.path. -/
def handleFileClick (s : AppState) (item : FileItem) (diskContent : String) :
    AppState :=
  if item.isDirectory then s
  else
    match s.tabs.findIdx? (fun t => t.path == item.path) with
    | some i => { s with activeTabIndex := Int.ofNat i }
    | none =>
      { s with
        tabs := s.tabs ++ [freshTab item.path diskContent],
        activeTabIndex := Int.ofNat s.tabs.length }

/-- handleOpenFile; result is what the open_file dialog returned (none
    when it was cancelled). -/
def handleOpenFile (s : AppState) (result : Option (String × String)) :
    AppState :=
  match result with
  | none => s
  | some (path, content) =>
    match s.tabs.findIdx? (fun t => t.path == path) with
    | some i => { s with activeTabIndex := Int.ofNat i }
    | none =>
      { s with
        tabs := s.tabs ++ [freshTab path content],
        activeTabIndex := Int.ofNat s.tabs.length }

/-- Does the second list start with the first one? -/
def startsWith : List Char → List Char → Bool
  | [], _ => true
  | _ :: _, [] => false
  | q :: qs, c :: cs => q == c && startsWith qs cs

/-- JS String.indexOf(query, start) over lists of characters: the first
    position at or after start where query occurs, none instead of -1. -/
def indexOfAux (q : List Char) : List Char → Nat → Option Nat
  | [], i => if q.isEmpty then some i else none
  | c :: cs, i =>
    if startsWith q (c :: cs) then some i else indexOfAux q cs (i + 1)

def indexOfFrom (s q : List Char) (start : Nat) : Option Nat :=
  indexOfAux q (s.drop start) start

/-- The while loop of the literal search branch: locate the query,
    record \x7b index, length \x7d, continue from index + 1 (one past the
    start of the hit).  Fuel bounds the recursion; text.length + 1 is
    enough fuel for a nonempty query. -/
def litScanAux (text q : List Char) (qlen : Nat) : Nat → Nat → List SMatch
  | _, 0 => []
  | start, fuel + 1 =>
    match indexOfFrom text q start with
    | none => []
    | some idx => ⟨idx, qlen⟩ :: litScanAux text q qlen (idx + 1) fuel

/-- Literal branch of the search-recompute effect: case-fold haystack
    and needle unless caseSensitive, then the overlap-permitting scan.
    The recorded length is searchQuery.length. -/
def litSearchMatches (text query : String) (caseSensitive : Bool) :
    List SMatch :=
  let searchText :=
    if caseSensitive then text.data else text.data.map Char.toLower
  let q :=
    if caseSensitive then query.data else query.data.map Char.toLower
  litScanAux searchText q query.length 0 (searchText.length + 1)

/-- Flags handed to new RegExp by the regex branch:
    searchCaseSensitive ? g : gi. -/
def regexFlags (searchCaseSensitive : Bool) : String :=
  if searchCaseSensitive then "g" else "gi"

/-- One JS splice newContent.substring(0, index) + replaceText +
    newContent.substring(index + length), over character lists. -/
def splice (s : List Char) (idx len : Nat) (repl : List Char) : List Char :=
  s.take idx ++ repl ++ s.drop (idx + len)

/-- The descending for-loop of handleReplaceAll (i from the last match
    down to 0), expressed as a right fold. -/
def replaceAllLoop (content : List Char) (ms : List SMatch)
    (repl : List Char) : List Char :=
  ms.foldr (fun m acc => splice acc m.index m.length repl) content

/-- Specification-level description of replace-all: each matched span of
    the buffer, taken left to right, is replaced by the replacement text
    and the text between spans is kept (the simultaneous replacement of
    all matched spans); pos is the position up to which the buffer has
    already been emitted. -/
def replaceEachSpanFrom (repl s : List Char) : Nat → List SMatch → List Char
  | pos, [] => s.drop pos
  | pos, m :: rest =>
    (s.take m.index).drop pos ++ repl ++
      replaceEachSpanFrom repl s (m.index + m.length) rest

def replaceEachSpan (repl s : List Char) (ms : List SMatch) : List Char :=
  replaceEachSpanFrom repl s 0 ms

/-- Well-formed match list: offsets ascending from lo with pairwise
    disjoint spans, every span ending by hi. -/
def okMatches (lo hi : Nat) : List SMatch → Bool
  | [] => true
  | m :: rest =>
    decide (lo ≤ m.index) && decide (m.index + m.length ≤ hi)
      && okMatches (m.index + m.length) hi rest

/-- handleReplaceAll: guard on an active tab and nonempty matches,
    splice every match in descending-offset order into one new string,
    commit it through handleTabContentChange, reset currentMatchIndex
    to -1. -/
def handleReplaceAll (s : AppState) (replaceText : String) : AppState :=
  match activeTab s with
  | none => s
  | some _ =>
    if s.searchMatches.isEmpty then s
    else
      let newContent :=
        replaceAllLoop (editorText s).data s.searchMatches replaceText.data
      let s1 := handleTabContentChange s ⟨newContent⟩
      { s1 with currentMatchIndex := -1 }

/-- Per-session Terminal component state: the backendIdRef plus the
    ledger of write_terminal invocations (id, data) in submission order
    and of inputs that only reached the console.warn branch. -/
structure TermSession where
  backendId : Option String
  written : List (String × String)
  warned : List String
deriving DecidableEq, Repr

/-- The xterm onData handler: forward the data to write_terminal when
    backendIdRef is set; otherwise only warn — the input is not retained
    anywhere in component state. -/
def dataHandler (s : TermSession) (data : String) : TermSession :=
  match s.backendId with
  | some id => { s with written := s.written ++ [(id, data)] }
  | none => { s with warned := s.warned ++ [data] }

/-- Resolution of the spawn_terminal promise: store the backend id and
    register the event listeners; nothing is written to the backend
    process at this point. -/
def spawnResolve (s : TermSession) (id : String) : TermSession :=
  { s with backendId := some id }

def initialTermSession : TermSession :=
  { backendId := none, written := [], warned := [] }

/-- One multiplexer tab \x7b id, shellType, title \x7d. -/
structure TermTab where
  id : String
  shellType : String
  title : String
deriving DecidableEq, Repr

/-- TerminalPanel state: the terminals list and the activeTerminal id. -/
structure TermPanelState where
  terminals : List TermTab
  activeTerminal : Option String
deriving DecidableEq, Repr

/-- closeTerminal(id): drop the tab; if it was active, make the first
    remaining tab (remaining[0]) active, else null. -/
def closeTerminal (s : TermPanelState) (id : String) : TermPanelState :=
  let newTerminals := s.terminals.filter (fun t => t.id != id)
  if s.activeTerminal = some id then
    let remaining := s.terminals.filter (fun t => t.id != id)
    { terminals := newTerminals,
      activeTerminal := remaining.head?.map TermTab.id }
  else
    { s with terminals := newTerminals }

/- Concrete fixtures used by witnesses and counterexamples. -/

def tabA : Tab :=
  { path := "a.txt", content := "a", isModified := false, isEditing := false,
    undoStack := [], redoStack := [] }

def tabB : Tab :=
  { path := "b.txt", content := "b", isModified := false, isEditing := false,
    undoStack := [], redoStack := [] }

def c2s0 : AppState :=
  { tabs := [tabA], activeTabIndex := 0, undoDebounceTimer := none,
    searchMatches := [], currentMatchIndex := -1 }

def c3s0 : AppState :=
  { tabs := [tabA, tabB], activeTabIndex := 0, undoDebounceTimer := none,
    searchMatches := [], currentMatchIndex := -1 }

def c3final : AppState :=
  fireTimer (handleTabContentChange (setActiveTab (handleTabContentChange c3s0 "a2") 1) "b2")

def c4tab : Tab :=
  { path := "f", content := "ab", isModified := true, isEditing := false,
    undoStack := ["", "a"], redoStack := [] }

def c4s0 : AppState :=
  { tabs := [c4tab], activeTabIndex := 0, undoDebounceTimer := none,
    searchMatches := [], currentMatchIndex := -1 }

def c5tab : Tab :=
  { path := "f", content := "a", isModified := true, isEditing := false,
    undoStack := [], redoStack := ["ab"] }

def c5s0 : AppState :=
  { tabs := [c5tab], activeTabIndex := 0, undoDebounceTimer := none,
    searchMatches := [], currentMatchIndex := -1 }

def c6s0 : TermPanelState :=
  { terminals :=
      [{ id := "tA", shellType := "bash", title := "bash - 1" },
       { id := "tB", shellType := "bash", title := "bash - 2" },
       { id := "tC", shellType := "bash", title := "bash - 3" }],
    activeTerminal := some "tB" }

def c7tab : Tab :=
  { path := "f", content := "banana", isModified := false, isEditing := false,
    undoStack := [], redoStack := [] }

def c7s0 : AppState :=
  { tabs := [c7tab], activeTabIndex := 0, undoDebounceTimer := none,
    searchMatches := [⟨1, 2⟩, ⟨3, 2⟩], currentMatchIndex := 0 }

def c10s0 : AppState :=
  { tabs := [freshTab "x.txt" "old"], activeTabIndex := -1,
    undoDebounceTimer := none, searchMatches := [], currentMatchIndex := -1 }

/- General helper lemmas. -/

theorem activeTab_elim (s : AppState) (tab : Tab) (ha : activeTab s = some tab) :
    ¬ s.activeTabIndex < 0 ∧ s.tabs[s.activeTabIndex.toNat]? = some tab := by
  unfold activeTab at ha
  by_cases h : s.activeTabIndex < 0
  · rw [if_pos h] at ha
    exact absurd ha (by simp)
  · rw [if_neg h] at ha
    exact ⟨h, ha⟩

theorem lt_length_of_getElem? {α : Type} {l : List α} {i : Nat} {a : α}
    (h : l[i]? = some a) : i < l.length := by
  by_contra hn
  push_neg at hn
  rw [List.getElem?_eq_none hn] at h
  exact Option.noConfusion h

/-- C1: a write issued while the session is still spawning (backend id
    unresolved) is not buffered: after the id resolves, nothing has been
    flushed to the backend — the pre-ready input only reached the
    console.warn branch, contradicting the buffered-and-flushed
    requirement. -/
theorem c1_preready_write_dropped :
    (spawnResolve (dataHandler initialTermSession "ls") "term-1").written = []
    ∧ (spawnResolve (dataHandler initialTermSession "ls") "term-1").backendId
        = some "term-1"
    ∧ (spawnResolve (dataHandler initialTermSession "ls") "term-1").warned
        = ["ls"] := by
  decide

/-- C2: at the failing input (one unmodified tab with content a, edited
    to b, debounce timer fires) the commit does not change only the
    stacks: the callback rebuilds the tab list from the stale pre-edit
    closure snapshot, so content reverts to a and isModified to false,
    while the snapshot a is pushed on undoStack. -/
theorem c2_debounce_commit_reverts_edit :
    editorText (fireTimer (handleTabContentChange c2s0 "b")) = "a"
    ∧ ((fireTimer (handleTabContentChange c2s0 "b")).tabs.head?.map
        Tab.isModified) = some false
    ∧ ((fireTimer (handleTabContentChange c2s0 "b")).tabs.head?.map
        Tab.undoStack) = some ["a"] := by
  decide

/-- C3 counterexample: edit tab 0, then switch to tab 1 and edit it
    before the timer fires.  After the one remaining pending timer fires
    no timer is left pending, yet tab 0's edit snapshot was never
    committed (its undoStack is still empty): the edit to the other
    session cancelled tab 0's pending debounce timer, contrary to the
    claim's per-session independence. -/
theorem c3_cross_session_edit_cancels_timer :
    c3final.undoDebounceTimer = none
    ∧ (c3final.tabs.head?.map Tab.undoStack) = some []
    ∧ (c3final.tabs.head?.map Tab.content) = some "a2" := by
  decide

/-- C3 amended: the component keeps one shared debounce timer, so after
    any edit exactly one commit is pending — the one for this edit; any
    previously pending commit, whether for the same or for a different
    session, has been cancelled by the overwrite. -/
theorem c3_single_shared_timer (s : AppState) (tab : Tab) (c : String)
    (h : activeTab s = some tab) :
    (handleTabContentChange s c).undoDebounceTimer
      = some { staleTabs := s.tabs, index := s.activeTabIndex.toNat,
               newContent := c } := by
  unfold handleTabContentChange
  rw [h]

theorem c3_single_shared_timer_w :
    (handleTabContentChange c3s0 "zz").undoDebounceTimer
      = some { staleTabs := c3s0.tabs, index := 0, newContent := "zz" } := by
  exact c3_single_shared_timer c3s0 tabA "zz" (by decide)

/-- C5 counterexample: an edit that rewrites the buffer with its current
    content (replacing a by a) is an edit other than undo/redo, yet after
    its debounce timer fires the redoStack is still nonempty, because the
    callback only clears redoStack when the captured content differs. -/
theorem c5_noop_edit_keeps_redo :
    (fireTimer (handleTabContentChange c5s0 "a")).undoDebounceTimer = none
    ∧ ((fireTimer (handleTabContentChange c5s0 "a")).tabs.head?.map
        Tab.redoStack) = some ["ab"] := by
  decide

/-- C5 amended: whenever the debounce commit fires for an edit whose new
    content differs from the captured pre-edit content, the committed
    tab's redoStack is empty afterwards. -/
theorem c5_commit_clears_redo (s : AppState) (p : PendingCommit) (tab : Tab)
    (hp : s.undoDebounceTimer = some p)
    (ht : p.staleTabs[p.index]? = some tab)
    (hc : tab.content ≠ p.newContent) :
    ((fireTimer s).tabs[p.index]?).map Tab.redoStack = some [] := by
  have hlt : p.index < p.staleTabs.length := lt_length_of_getElem? ht
  unfold fireTimer
  rw [hp]
  show ((debounceCallback p s.tabs)[p.index]?).map Tab.redoStack = some []
  unfold debounceCallback
  rw [ht]
  dsimp only
  rw [if_pos hc]
  rw [List.getElem?_set_self hlt]
  rfl

theorem c5_commit_clears_redo_w :
    (((fireTimer (handleTabContentChange c5s0 "xyz")).tabs[0]?).map
      Tab.redoStack) = some [] := by
  exact c5_commit_clears_redo (handleTabContentChange c5s0 "xyz")
    { staleTabs := c5s0.tabs, index := 0, newContent := "xyz" } c5tab
    (by decide) (by decide) (by decide)

/-- C6 counterexample: with terminal tabs tA, tB, tC and tB active,
    closing tB makes tA active — the first remaining tab — and not tC,
    the next one in tab order that the claim requires. -/
theorem c6_close_active_not_next :
    (closeTerminal c6s0 "tB").activeTerminal = some "tA"
    ∧ (closeTerminal c6s0 "tB").activeTerminal ≠ some "tC" := by
  decide

/-- C6 amended: closing the active terminal session makes the first
    remaining tab active (none when no tab remains); closing a
    non-active terminal leaves activeTerminal unchanged. -/
theorem c6_close_promotes_first (s : TermPanelState) (id : String) :
    (s.activeTerminal = some id →
      (closeTerminal s id).activeTerminal
        = (s.terminals.filter (fun t => t.id != id)).head?.map TermTab.id)
    ∧ (s.activeTerminal ≠ some id →
      (closeTerminal s id).activeTerminal = s.activeTerminal) := by
  unfold closeTerminal
  constructor
  · intro h
    rw [if_pos h]
  · intro h
    rw [if_neg h]

theorem c6_close_promotes_first_w :
    (closeTerminal c6s0 "tA").activeTerminal = some "tB" := by
  exact (c6_close_promotes_first c6s0 "tA").2 (by decide)

/-- C8: literal-mode search finds overlapping matches by restarting one
    character past the start of the previous hit and case-folds both
    sides when not case-sensitive: "aaa" / "aa" yields matches at 0 and 1
    (either case option), and "abAB" / "Ab" with caseSensitive = false
    yields matches at 0 and 2, each of length 2. -/
theorem c8_literal_overlap_examples :
    litSearchMatches "aaa" "aa" false = [⟨0, 2⟩, ⟨1, 2⟩]
    ∧ litSearchMatches "aaa" "aa" true = [⟨0, 2⟩, ⟨1, 2⟩]
    ∧ litSearchMatches "abAB" "Ab" false = [⟨0, 2⟩, ⟨2, 2⟩] := by
  decide

/-- C9 counterexample: the flag string handed to new RegExp is g when
    caseSensitive and gi otherwise; neither contains the multiline flag m
    that the claim says is always passed. -/
theorem c9_no_multiline_flag :
    regexFlags true = "g" ∧ regexFlags false = "gi"
    ∧ (regexFlags true).data.contains 'm' = false
    ∧ (regexFlags false).data.contains 'm' = false := by
  decide

/-- C9 amended: regex mode always passes the global flag, passes the
    case-insensitive flag exactly when caseSensitive is off, and never
    passes the multiline flag. -/
theorem c9_regex_flags :
    ((regexFlags true).data.contains 'g' = true
      ∧ (regexFlags true).data.contains 'i' = false
      ∧ (regexFlags true).data.contains 'm' = false)
    ∧ ((regexFlags false).data.contains 'g' = true
      ∧ (regexFlags false).data.contains 'i' = true
      ∧ (regexFlags false).data.contains 'm' = false) := by
  decide

theorem getLast?_sliceLast50_concat (l : List String) (x : String) :
    (sliceLast50 (l ++ [x])).getLast? = some x := by
  unfold sliceLast50
  rw [List.drop_append_eq_append_drop]
  have h0 : (l ++ [x]).length - 50 - l.length = 0 := by
    simp only [List.length_append, List.length_cons, List.length_nil]
    omega
  rw [h0]
  simp only [List.drop_zero]
  exact List.getLast?_concat _

theorem activeTab_set (s : AppState) (tab t : Tab)
    (ha : activeTab s = some tab) :
    activeTab { s with tabs := s.tabs.set s.activeTabIndex.toNat t }
      = some t := by
  obtain ⟨hneg, hget⟩ := activeTab_elim s tab ha
  have hlt : s.activeTabIndex.toNat < s.tabs.length := lt_length_of_getElem? hget
  unfold activeTab
  dsimp only
  rw [if_neg hneg]
  exact List.getElem?_set_self hlt

theorem handleUndo_eq (s : AppState) (tab : Tab) (u : String)
    (ha : activeTab s = some tab) (hu : tab.undoStack.getLast? = some u) :
    handleUndo s
      = { s with
          tabs := s.tabs.set s.activeTabIndex.toNat
            { tab with
              content := u,
              undoStack := tab.undoStack.dropLast,
              redoStack := sliceLast50 (tab.redoStack ++ [tab.content]),
              isModified := true } } := by
  unfold handleUndo
  rw [ha]
  dsimp only
  rw [hu]

theorem handleRedo_eq (s : AppState) (tab : Tab) (v : String)
    (ha : activeTab s = some tab) (hv : tab.redoStack.getLast? = some v) :
    handleRedo s
      = { s with
          tabs := s.tabs.set s.activeTabIndex.toNat
            { tab with
              content := v,
              undoStack := sliceLast50 (tab.undoStack ++ [tab.content]),
              redoStack := tab.redoStack.dropLast,
              isModified := true } } := by
  unfold handleRedo
  rw [ha]
  dsimp only
  rw [hv]

/-- C4: with an active tab, a nonempty undo stack and no pending
    debounce timer, undo rewrites content to the top of the undo stack
    (the most recent committed snapshot) and an immediate redo restores
    exactly the content present just before the undo. -/
theorem c4_undo_redo_roundtrip (s : AppState) (tab : Tab) (u : String)
    (ha : activeTab s = some tab) (hu : tab.undoStack.getLast? = some u)
    (hp : s.undoDebounceTimer = none) :
    editorText (handleUndo s) = u
    ∧ editorText (handleRedo (handleUndo s)) = tab.content := by
  have h1 := handleUndo_eq s tab u ha hu
  have ha1 : activeTab (handleUndo s)
      = some { tab with
               content := u,
               undoStack := tab.undoStack.dropLast,
               redoStack := sliceLast50 (tab.redoStack ++ [tab.content]),
               isModified := true } := by
    rw [h1]
    exact activeTab_set s tab _ ha
  refine ⟨?_, ?_⟩
  · unfold editorText
    rw [ha1]
    rfl
  · have hu1 : ({ tab with
        content := u,
        undoStack := tab.undoStack.dropLast,
        redoStack := sliceLast50 (tab.redoStack ++ [tab.content]),
        isModified := true } : Tab).redoStack.getLast? = some tab.content :=
      getLast?_sliceLast50_concat _ _
    have h2 := handleRedo_eq (handleUndo s) _ tab.content ha1 hu1
    have ha2 : activeTab (handleRedo (handleUndo s))
        = some { tab with
                 content := tab.content,
                 undoStack := sliceLast50 (tab.undoStack.dropLast ++ [u]),
                 redoStack := (sliceLast50 (tab.redoStack ++ [tab.content])).dropLast,
                 isModified := true } := by
      rw [h2]
      exact activeTab_set (handleUndo s) _ _ ha1
    unfold editorText
    rw [ha2]
    rfl

theorem c4_undo_redo_roundtrip_w :
    editorText (handleUndo c4s0) = "a"
    ∧ editorText (handleRedo (handleUndo c4s0)) = "ab" := by
  exact c4_undo_redo_roundtrip c4s0 c4tab "a" (by decide) (by decide) rfl

theorem splice_take_append (s T repl : List Char) (i l : Nat)
    (hk : i + l ≤ s.length) :
    splice (s.take (i + l) ++ T) i l repl = s.take i ++ repl ++ T := by
  unfold splice
  have hlen : (s.take (i + l)).length = i + l := by
    rw [List.length_take]; omega
  rw [List.take_append_eq_append_take, List.drop_append_eq_append_drop, hlen]
  have hmin : min i (i + l) = i := by omega
  have ht1 : (s.take (i + l)).take i = s.take i := by
    rw [List.take_take, hmin]
  have ht2 : T.take (i - (i + l)) = [] := by
    have e : i - (i + l) = 0 := by omega
    rw [e, List.take_zero]
  have ht3 : (s.take (i + l)).drop (i + l) = [] :=
    List.drop_eq_nil_iff.mpr (by omega)
  have ht4 : i + l - (i + l) = 0 := by omega
  rw [ht1, ht2, ht3, ht4]
  simp

theorem replaceAllLoop_eq_from (repl : List Char) (ms : List SMatch) :
    ∀ (pos : Nat) (s : List Char), okMatches pos s.length ms = true →
      replaceAllLoop s ms repl
        = s.take pos ++ replaceEachSpanFrom repl s pos ms := by
  induction ms with
  | nil =>
    intro pos s _
    simp [replaceAllLoop, replaceEachSpanFrom, List.take_append_drop]
  | cons m rest ih =>
    intro pos s h
    simp only [okMatches, Bool.and_eq_true, decide_eq_true_eq] at h
    obtain ⟨⟨h1, h2⟩, h3⟩ := h
    have ihh := ih (m.index + m.length) s h3
    show splice (replaceAllLoop s rest repl) m.index m.length repl = _
    rw [ihh, splice_take_append s _ repl m.index m.length h2]
    show _ = s.take pos ++ ((s.take m.index).drop pos ++ repl ++
      replaceEachSpanFrom repl s (m.index + m.length) rest)
    have h4 : (s.take m.index).take pos = s.take pos := by
      rw [List.take_take]
      congr 1
      omega
    have hsplit : s.take m.index
        = s.take pos ++ (s.take m.index).drop pos := by
      conv_lhs => rw [← List.take_append_drop pos (s.take m.index)]
      rw [h4]
    conv_lhs => rw [hsplit]
    simp [List.append_assoc]

theorem replaceAllLoop_eq_replaceEachSpan (repl : List Char) (ms : List SMatch)
    (s : List Char) (h : okMatches 0 s.length ms = true) :
    replaceAllLoop s ms repl = replaceEachSpan repl s ms := by
  have hz := replaceAllLoop_eq_from repl ms 0 s h
  simpa [replaceEachSpan] using hz

theorem activeTab_handleTabContentChange (s : AppState) (tab : Tab) (c : String)
    (ha : activeTab s = some tab) :
    activeTab (handleTabContentChange s c)
      = some { tab with content := c, isModified := true } := by
  obtain ⟨hneg, hget⟩ := activeTab_elim s tab ha
  have hlt : s.activeTabIndex.toNat < s.tabs.length := lt_length_of_getElem? hget
  unfold handleTabContentChange
  rw [ha]
  unfold activeTab
  dsimp only
  rw [if_neg hneg]
  exact List.getElem?_set_self hlt

/-- C7: with an active tab and a nonempty well-formed match set (offsets
    ascending, spans pairwise disjoint and in bounds), handleReplaceAll
    rewrites the buffer — splicing in descending-offset order inside one
    edit — to exactly the simultaneous replacement of every matched span
    by the replacement text, and resets currentMatchIndex to -1. -/
theorem c7_replaceAll_correct (s : AppState) (tab : Tab) (r : String)
    (ha : activeTab s = some tab) (hm : s.searchMatches ≠ [])
    (hok : okMatches 0 tab.content.data.length s.searchMatches = true) :
    editorText (handleReplaceAll s r)
      = String.mk (replaceEachSpan r.data tab.content.data s.searchMatches)
    ∧ (handleReplaceAll s r).currentMatchIndex = -1 := by
  have hempty : s.searchMatches.isEmpty = false := by
    cases hms : s.searchMatches with
    | nil => exact absurd hms hm
    | cons a l => rfl
  have het : editorText s = tab.content := by
    unfold editorText
    rw [ha]
    rfl
  have hloop : replaceAllLoop tab.content.data s.searchMatches r.data
      = replaceEachSpan r.data tab.content.data s.searchMatches :=
    replaceAllLoop_eq_replaceEachSpan r.data s.searchMatches tab.content.data hok
  have heq : handleReplaceAll s r
      = { handleTabContentChange s
            (String.mk (replaceAllLoop tab.content.data s.searchMatches r.data))
          with currentMatchIndex := -1 } := by
    unfold handleReplaceAll
    rw [ha]
    dsimp only
    rw [hempty, het]
    rfl
  have ha2 := activeTab_handleTabContentChange s tab
    (String.mk (replaceAllLoop tab.content.data s.searchMatches r.data)) ha
  have he2 : editorText (handleTabContentChange s
      (String.mk (replaceAllLoop tab.content.data s.searchMatches r.data)))
      = String.mk (replaceAllLoop tab.content.data s.searchMatches r.data) := by
    unfold editorText
    rw [ha2]
    rfl
  constructor
  · rw [heq]
    show editorText (handleTabContentChange s
      (String.mk (replaceAllLoop tab.content.data s.searchMatches r.data))) = _
    rw [he2, hloop]
  · rw [heq]

theorem c7_replaceAll_correct_w :
    editorText (handleReplaceAll c7s0 "x") = "bxxa"
    ∧ (handleReplaceAll c7s0 "x").currentMatchIndex = -1 := by
  have h := c7_replaceAll_correct c7s0 c7tab "x" (by decide) (by decide) (by decide)
  exact ⟨h.1.trans (by decide), h.2⟩

/-- C10: opening a path that is already open in some tab — via the file
    tree or the open dialog — only sets activeTabIndex to that tab's
    index: the whole tab list (paths, contents, flags, stacks) and all
    other state are untouched, and the result does not depend on the
    content on disk, so an externally modified file is not refreshed. -/
theorem c10_open_existing_only_activates (s : AppState) (item : FileItem)
    (d : String) (i : Nat)
    (hdir : item.isDirectory = false)
    (hfind : s.tabs.findIdx? (fun t => t.path == item.path) = some i) :
    handleFileClick s item d = { s with activeTabIndex := Int.ofNat i }
    ∧ handleOpenFile s (some (item.path, d))
        = { s with activeTabIndex := Int.ofNat i } := by
  constructor
  · unfold handleFileClick
    rw [hdir]
    simp only [Bool.false_eq_true, if_false]
    rw [hfind]
  · unfold handleOpenFile
    dsimp only
    rw [hfind]

theorem c10_open_existing_only_activates_w :
    handleFileClick c10s0 { path := "x.txt", isDirectory := false } "newer"
      = { c10s0 with activeTabIndex := 0 }
    ∧ handleOpenFile c10s0 (some ("x.txt", "newer"))
      = { c10s0 with activeTabIndex := 0 } := by
  exact c10_open_existing_only_activates c10s0
    { path := "x.txt", isDirectory := false } "newer" 0 rfl (by decide)
